import Mathlib

/-!
Verification of the sec-filings-agent core (src/lib/sec.ts and the
filings.stream handler of src/lib/agent.ts) against its specification.

The TypeScript code is shallowly embedded: pure functions become Lean
functions, the module-level caches become explicit state passing, and the
outcomes of outbound network attempts are supplied by oracles
(`Nat -> Except String Response`), one entry per attempt / iteration.
JS numbers that hold integers are modelled as Nat / Int; JS `undefined`
and `null` are both modelled as `Option.none` (the code converts
`undefined` to `null` with `?? null` wherever the distinction could show).
-/

namespace SecFilings

/-- Outcome of one HTTP attempt as far as fetchWithRetry inspects it:
a status code plus an opaque body tag so that distinct responses with the
same status can be told apart. -/
structure Response where
  status : Nat
  body : String
  deriving DecidableEq, Repr

/-- Translation of the WHATWG `res.ok` accessor: status in [200, 300). -/
def Response.ok (r : Response) : Bool :=
  decide (200 ≤ r.status) && decide (r.status < 300)

/-- Translation of the transient-status test in fetchWithRetry
(sec.ts lines 71-77): 429, 408, 500, 502, 503 or 504. -/
def retryableStatus (s : Nat) : Bool :=
  s == 429 || s == 408 || s == 500 || s == 502 || s == 503 || s == 504

/-- An attempt outcome after which the fetchWithRetry loop moves on to the
next attempt (when one is left): a thrown network error, or a non-ok
response with a transient status. -/
def attemptContinues : Except String Response → Bool
  | .error _ => true
  | .ok res => !res.ok && retryableStatus res.status

/-- Translation of the retry loop of fetchWithRetry (sec.ts lines 64-95).
`oracle i` is the outcome of attempt `i` (a thrown network exception or a
response); `attempt` is the current loop index and the last argument is
`retries - attempt`, the number of attempts still allowed after this one.
Returns the result of the call together with the number of attempts
performed. At the final attempt the source returns the response whatever
its status (line 79) and rethrows the last caught exception (lines 89, 95),
so the result there is exactly the oracle outcome. Backoff delays (lines
81-85, 90-92) do not affect the result and are not modelled here. -/
def fetchLoop (oracle : Nat → Except String Response) (attempt : Nat) :
    Nat → Except String Response × Nat
  | 0 => (oracle attempt, 1)
  | remaining + 1 =>
    match oracle attempt with
    | .ok res =>
      if res.ok then ((.ok res : Except String Response), 1)
      else if retryableStatus res.status then
        let rest := fetchLoop oracle (attempt + 1) remaining
        (rest.1, rest.2 + 1)
      else ((.ok res : Except String Response), 1)
    | .error _ =>
      let rest := fetchLoop oracle (attempt + 1) remaining
      (rest.1, rest.2 + 1)

/-- Result of fetchWithRetry for a given attempt oracle and retry budget
(the source default is `retries = 4`, i.e. 5 total attempts). -/
def fetchWithRetry (oracle : Nat → Except String Response) (retries : Nat) :
    Except String Response :=
  (fetchLoop oracle 0 retries).1

/-- Number of attempts a fetchWithRetry call performs. -/
def fetchAttempts (oracle : Nat → Except String Response) (retries : Nat) : Nat :=
  (fetchLoop oracle 0 retries).2

/-- Error message thrown by requireSecUserAgent (sec.ts lines 32-34). -/
def missingUserAgentMessage : String :=
  "Missing SEC_USER_AGENT env var (required by SEC). Example: \"sec-filings-agent/0.1 (youremail@domain.com)\""

/-- Translation of requireSecUserAgent (sec.ts lines 29-37). The process
environment variable SEC_USER_AGENT is modelled as an `Option String`
(`none` = unset). The source condition `!ua || ua.trim().length < 10`
treats the empty string as falsy, hence the explicit disjunct. -/
def requireSecUserAgent (env : Option String) : Except String String :=
  match env with
  | none => .error missingUserAgentMessage
  | some ua =>
    if ua = "" ∨ ua.trim.length < 10 then .error missingUserAgentMessage
    else .ok ua

/-- An outbound HTTP request as this program builds one: target URL plus
the two headers the code sets. -/
structure SecRequest where
  url : String
  userAgent : Option String
  accept : String
  deriving DecidableEq, Repr

/-- The request that fetchJson (sec.ts lines 98-113) hands to
fetchWithRetry, or the precondition error raised before it: the source
calls requireSecUserAgent first, so on the error path no request value
exists at all — the network is never touched. -/
def fetchJsonRequest (env : Option String) (url : String) : Except String SecRequest :=
  match requireSecUserAgent env with
  | .error e => .error e
  | .ok ua => .ok { url := url, userAgent := some ua, accept := "application/json,text/plain,*/*" }

/-- The User-Agent header of the direct document fetch in summarizeHandler
(agent.ts lines 529-536): `process.env.SEC_USER_AGENT ?? <fallback>`.
There is no precondition check on this path; an unset env var is replaced
by a hardcoded fallback string. -/
def summarizeDocUserAgent (env : Option String) : String :=
  match env with
  | some ua => ua
  | none => "sec-filings-agent/0.1 (set SEC_USER_AGENT env var)"

/-- The request the summarizeHandler document fetch sends. It is total:
this path can not fail on a missing identifying header. -/
def summarizeDocRequest (env : Option String) (docUrl : String) : SecRequest :=
  { url := docUrl, userAgent := some (summarizeDocUserAgent env), accept := "text/html,text/plain,*/*" }

/-- A `cik` argument as the source accepts it: a JS number or a string. -/
inductive CikInput
  | num (n : Int)
  | str (s : String)
  deriving DecidableEq, Repr

/-- Value of a digit list read as a decimal numeral. -/
def digitsToNat (ds : List Char) : Nat :=
  ds.foldl (fun acc c => acc * 10 + (c.toNat - 48)) 0

/-- Decimal `parseInt(s, 10)` as used by normalizeCik: an optional sign
followed by the longest digit prefix; no digits means NaN (`none`).
(The JS leading-whitespace skip is irrelevant for the identifiers at hand
and elided.) Written over the character list so that it reduces inside
the kernel. -/
def parseIntPrefix (s : String) : Option Int :=
  let cs := s.data
  let core := match cs with
    | '-' :: rest => rest
    | '+' :: rest => rest
    | _ => cs
  let neg := match cs with
    | '-' :: _ => true
    | _ => false
  let ds := core.takeWhile Char.isDigit
  if ds.isEmpty then none
  else
    let n := digitsToNat ds
    some (if neg then -(n : Int) else (n : Int))

/-- Translation of normalizeCik (sec.ts lines 44-46):
`String(typeof cik === 'number' ? cik : parseInt(cik, 10))`; `String` of
NaN is the string "NaN". -/
def normalizeCik : CikInput → String
  | .num n => toString n
  | .str s =>
    match parseIntPrefix s with
    | some n => toString n
    | none => "NaN"

/-- Translation of accessionNoDashes (sec.ts lines 48-50): remove every
dash. -/
def accessionNoDashes (accession : String) : String :=
  String.mk (accession.data.filter (fun c => c ≠ '-'))

/-- Translation of buildPrimaryDocUrl (sec.ts lines 225-233). -/
def buildPrimaryDocUrl (cik : CikInput) (accessionNumber : String)
    (primaryDocument : String) : String :=
  let cikNum := normalizeCik cik
  let acc := accessionNoDashes accessionNumber
  "https://www.sec.gov/Archives/edgar/data/" ++ cikNum ++ "/" ++ acc ++ "/" ++ primaryDocument

/-- JS `Map.set` on an association list: replace in place when the key is
already present (keeping its position, as a JS Map does), append otherwise. -/
def mapSet {α : Type} : List (String × α) → String → α → List (String × α)
  | [], k, v => [(k, v)]
  | (k', v') :: rest, k, v =>
    if k' = k then (k, v) :: rest else (k', v') :: mapSet rest k v

/-- Translation of the SubmissionsRecent type (sec.ts lines 151-166):
parallel column sequences, the optional ones possibly absent and with
nullable elements. -/
structure SubmissionsRecent where
  accessionNumber : List String
  filingDate : List String
  reportDate : Option (List (Option String)) := none
  acceptanceDateTime : Option (List (Option String)) := none
  act : Option (List (Option String)) := none
  form : List String
  fileNumber : Option (List (Option String)) := none
  filmNumber : Option (List (Option String)) := none
  items : Option (List (Option String)) := none
  size : Option (List (Option Int)) := none
  isXBRL : Option (List (Option Int)) := none
  isInlineXBRL : Option (List (Option Int)) := none
  primaryDocument : Option (List (Option String)) := none
  primaryDocDescription : Option (List (Option String)) := none
  deriving DecidableEq, Repr

/-- Translation of the `filings` member of SubmissionsResponse. -/
structure SubmissionsFilings where
  recent : Option SubmissionsRecent
  deriving DecidableEq, Repr

/-- Translation of SubmissionsResponse (sec.ts lines 168-176). -/
structure SubmissionsResponse where
  cik : String
  name : Option String := none
  tickers : Option (List String) := none
  sicDescription : Option String := none
  filings : Option SubmissionsFilings := none
  deriving DecidableEq, Repr

/-- Translation of FilingItem (sec.ts lines 12-27). The source declares
accessionNumber, filingDate and form as non-null strings, but builds them
with `seq[i]!`, which at runtime yields `undefined` when the sequence is
shorter than the accessionNumber sequence; filingDate and form are
therefore carried as `Option String` here (accessionNumber itself is
always in bounds, its own length being the loop bound). -/
structure FilingItem where
  accessionNumber : String
  filingDate : Option String
  reportDate : Option String := none
  acceptanceDateTime : Option String := none
  act : Option String := none
  form : Option String
  fileNumber : Option String := none
  filmNumber : Option String := none
  items : Option String := none
  size : Option Int := none
  isXBRL : Option Int := none
  isInlineXBRL : Option Int := none
  primaryDocument : Option String := none
  primaryDocDescription : Option String := none
  deriving DecidableEq, Repr

/-- Positional access into an optional column, translating
`seq?.[i] ?? null` (recentFilingsToItems): `none` when the column is
absent or shorter than `i + 1`, the (itself nullable) element otherwise. -/
def optionAt {α : Type} (seq : Option (List (Option α))) (i : Nat) : Option α :=
  match seq with
  | none => none
  | some l => (l[i]?).getD none

/-- The record the push at sec.ts lines 205-220 builds for index `i`. -/
def filingItemAt (r : SubmissionsRecent) (i : Nat) : FilingItem :=
  { accessionNumber := (r.accessionNumber[i]?).getD ""
    filingDate := r.filingDate[i]?
    reportDate := optionAt r.reportDate i
    acceptanceDateTime := optionAt r.acceptanceDateTime i
    act := optionAt r.act i
    form := r.form[i]?
    fileNumber := optionAt r.fileNumber i
    filmNumber := optionAt r.filmNumber i
    items := optionAt r.items i
    size := optionAt r.size i
    isXBRL := optionAt r.isXBRL i
    isInlineXBRL := optionAt r.isInlineXBRL i
    primaryDocument := optionAt r.primaryDocument i
    primaryDocDescription := optionAt r.primaryDocDescription i }

/-- Translation of recentFilingsToItems (sec.ts lines 200-223): one
record per accessionNumber entry, in order, each field the positional
slice of its column. -/
def recentFilingsToItems (recent : Option SubmissionsRecent) : List FilingItem :=
  match recent with
  | none => []
  | some r => (List.range r.accessionNumber.length).map (filingItemAt r)

/-- One submissions cache entry (sec.ts lines 178-181); the source field
`at` is a reserved word in Lean and is called `fetchedAt` here. -/
structure CacheEntry where
  fetchedAt : Nat
  value : SubmissionsResponse
  deriving DecidableEq, Repr

/-- The submissions cache: a map keyed by the normalized identifier. -/
abbrev SubmissionsCache := List (String × CacheEntry)

/-- Result of one getSubmissions call: the value or error handed to the
caller, the cache as left behind, and how many upstream fetches the call
performed. -/
structure GetSubmissionsOutcome where
  result : Except String SubmissionsResponse
  cache : SubmissionsCache
  fetches : Nat
  deriving Repr

/-- Translation of getSubmissions (sec.ts lines 183-198). `now` is the
`Date.now()` reading taken at line 191, `fetchResult` the outcome of the
single `fetchJson` call at line 195 (network and JSON-parse failures both
surface as its error case). Freshness compares over Int since the JS
subtraction may be negative for a clock that moved backwards. On success
the entry under the normalized key is replaced with the new value and the
`now` timestamp; on failure the function rethrows and line 196 is never
reached, so the cache is left exactly as it was. -/
def getSubmissions (cache : SubmissionsCache) (now : Nat)
    (fetchResult : Except String SubmissionsResponse) (cik : CikInput)
    (cacheTtlMs : Nat) : GetSubmissionsOutcome :=
  let normalized := normalizeCik cik
  let fetchPath : GetSubmissionsOutcome :=
    match fetchResult with
    | .ok value =>
      { result := .ok value
        cache := mapSet cache normalized { fetchedAt := now, value := value }
        fetches := 1 }
    | .error e => { result := .error e, cache := cache, fetches := 1 }
  match cache.lookup normalized with
  | some entry =>
    if (now : Int) - (entry.fetchedAt : Int) < (cacheTtlMs : Int) then
      { result := .ok entry.value, cache := cache, fetches := 0 }
    else fetchPath
  | none => fetchPath

/-- One row of the company_tickers.json table (sec.ts lines 3-10). -/
structure TickerRow where
  cik_str : Nat
  ticker : String
  title : Option String := none
  deriving DecidableEq, Repr

/-- Translation of the map-building loop inside getTickerMap (sec.ts
lines 134-138): uppercase the ticker, last write wins on duplicates. -/
def buildTickerMap (rows : List TickerRow) : List (String × Nat) :=
  rows.foldl (fun m row => mapSet m row.ticker.toUpper row.cik_str) []

/-- The module-level memoization state of getTickerMap (sec.ts line 127):
`tickerMapPromise` holds the identity of the single in-flight (or settled)
bulk-load promise, `none` before the first call. Promises are identified
by the index of the bulk fetch that created them; `fetchCount` counts how
many bulk fetches have ever been started. -/
structure TickerState where
  tickerMapPromise : Option Nat
  fetchCount : Nat
  deriving DecidableEq, Repr

/-- State at process start: no promise, no fetch performed. -/
def initialTickerState : TickerState :=
  { tickerMapPromise := none, fetchCount := 0 }

/-- The synchronous head of getTickerMap (sec.ts lines 130-141): the
check-and-assign of `tickerMapPromise` runs without an intervening await,
so on the JS event loop it is atomic with respect to other callers. A call
finding the field unset starts one bulk fetch and publishes its promise;
any other call returns the already-stored promise unchanged. -/
def getTickerMapCall (st : TickerState) : Nat × TickerState :=
  match st.tickerMapPromise with
  | some p => (p, st)
  | none =>
    (st.fetchCount,
     { tickerMapPromise := some st.fetchCount, fetchCount := st.fetchCount + 1 })

/-- Awaiting the memoized promise: `fetchOutcome p` is the settled result
of the bulk fetch (fetchJson at sec.ts line 133, including schema parse)
that created promise `p`; a fulfilled fetch is folded through the
map-building loop, a rejection is rethrown to every awaiter. -/
def getTickerMap (fetchOutcome : Nat → Except String (List TickerRow))
    (st : TickerState) : Except String (List (String × Nat)) × TickerState :=
  let call := getTickerMapCall st
  ((fetchOutcome call.1).map buildTickerMap, call.2)

/-- Translation of cikFromTicker (sec.ts lines 144-149): await the map,
look the uppercased ticker up, and treat a missing entry (the source
`!cik` also catches a zero value) as an unknown-ticker error. -/
def cikFromTicker (fetchOutcome : Nat → Except String (List TickerRow))
    (st : TickerState) (tk : String) : Except String Nat × TickerState :=
  let res := getTickerMap fetchOutcome st
  match res.1 with
  | .error e => (.error e, res.2)
  | .ok map =>
    match map.lookup tk.toUpper with
    | some cik =>
      if cik = 0 then (.error ("Unknown ticker: " ++ tk), res.2) else (.ok cik, res.2)
    | none => (.error ("Unknown ticker: " ++ tk), res.2)

/-- A sequence of getTickerMapCall invocations (concurrent callers in
program order), collecting the promise each caller ends up awaiting. -/
def runTickerCalls : Nat → TickerState → List Nat × TickerState
  | 0, st => ([], st)
  | k + 1, st =>
    let call := getTickerMapCall st
    let rest := runTickerCalls k call.2
    (call.1 :: rest.1, rest.2)

/-- A sequence of full getTickerMap calls, collecting each returned
result. -/
def runGetTickerMaps (fetchOutcome : Nat → Except String (List TickerRow)) :
    Nat → TickerState → List (Except String (List (String × Nat))) × TickerState
  | 0, st => ([], st)
  | k + 1, st =>
    let res := getTickerMap fetchOutcome st
    let rest := runGetTickerMaps fetchOutcome k res.2
    (res.1 :: rest.1, rest.2)

/-- The subscription input of filings.stream after zod validation
(agent.ts lines 399-407), restricted to the fields the loop reads. -/
structure StreamInput where
  forms : Option (List String)
  pollIntervalSec : Nat
  maxEvents : Nat
  deriving Repr

/-- Translation of the formsSet computation (agent.ts lines 422-424):
uppercase all requested form codes, `none` when the list is absent or
empty. -/
def formsSetOf (forms : Option (List String)) : Option (List String) :=
  match forms with
  | some fs => if fs.length ≠ 0 then some (fs.map String.toUpper) else none
  | none => none

/-- The per-item filter of the stream loop (agent.ts lines 433-435). The
source reads `item.form.toUpperCase()`; a record whose form column was
shorter than the accession column would make that throw, which the model
elides by defaulting to the empty string. -/
def matchesForms (fSet : Option (List String)) (item : FilingItem) : Bool :=
  match fSet with
  | some s => s.contains ((item.form.getD "").toUpper)
  | none => true

/-- An event the stream hands to `emit`: either the text event of agent.ts
lines 451-464 (its JSON payload carried structurally rather than
serialized) or the in-band poll error of lines 467-472. -/
inductive StreamEvent
  | text (cik : String) (name : Option String) (tickers : Option (List String))
      (filing : FilingItem) (primaryDocUrl : Option String)
  | pollError (code : String) (message : String) (retryable : Bool)
  deriving DecidableEq, Repr

/-- The terminal summary of the stream (agent.ts lines 481-484). -/
structure StreamSummary where
  status : String
  eventsSent : Nat
  deriving DecidableEq, Repr

/-- One iteration body of the filings.stream loop (agent.ts lines
430-473): `pollResult` is the outcome of the awaited
`getSubmissions(cik, cacheTtlMs 5000)` for this iteration. Returns the
updated cursor, the updated emitted count, and the events emitted. The
catch branch turns any iteration failure into a single retryable in-band
error event and leaves cursor and count untouched. An emitted filing event
carries the normalized record and, when a primary document name is
present (the source also re-tests the accession, already known truthy
here), the derived primary-document URL. -/
def streamStep (fSet : Option (List String))
    (pollResult : Except String SubmissionsResponse)
    (lastAccession : Option String) (sent : Nat) :
    Option String × Nat × List StreamEvent :=
  match pollResult with
  | .error e => (lastAccession, sent, [.pollError "stream_poll_error" e true])
  | .ok submissions =>
    let recent := recentFilingsToItems (submissions.filings.bind SubmissionsFilings.recent)
    let filtered := recent.filter (matchesForms fSet)
    match filtered.head? with
    | some latest =>
      if latest.accessionNumber ≠ "" ∧ some latest.accessionNumber ≠ lastAccession then
        let primaryDocUrl :=
          match latest.primaryDocument with
          | some pd =>
            if pd ≠ "" then
              some (buildPrimaryDocUrl (.str submissions.cik) latest.accessionNumber pd)
            else none
          | none => none
        (some latest.accessionNumber, sent + 1,
          [.text submissions.cik submissions.name submissions.tickers latest primaryDocUrl])
      else (lastAccession, sent, [])
    | none => (lastAccession, sent, [])

/-- The filings.stream while loop (agent.ts lines 429-484), untimed.
`upstream i` is the poll outcome of iteration `i`, `abortedAt i` the value
`ctx.signal.aborted` shows at the loop-condition check before iteration
`i`. The loop need not terminate on its own, so the model carries fuel:
`none` means the run was cut off by fuel, `some` is a genuine termination
with the events in emission order and the final summary (agent.ts lines
481-484: status `cancelled` exactly when the signal was observed set at
the exiting check). -/
def streamLoop (inp : StreamInput) (upstream : Nat → Except String SubmissionsResponse)
    (abortedAt : Nat → Bool) :
    Nat → Nat → Option String → Nat → Option (List StreamEvent × StreamSummary)
  | 0, _, _, _ => none
  | fuel + 1, iter, lastAccession, sent =>
    if abortedAt iter || decide (inp.maxEvents ≤ sent) then
      some ([], { status := if abortedAt iter then "cancelled" else "succeeded"
                  eventsSent := sent })
    else
      let out := streamStep (formsSetOf inp.forms) (upstream iter) lastAccession sent
      match streamLoop inp upstream abortedAt fuel (iter + 1) out.1 out.2.1 with
      | none => none
      | some (evs', summary) => some (out.2.2 ++ evs', summary)

/-- Value of `ctx.signal.aborted` at a given time, for a signal raised at
`abortTime` (none = never raised): once set it stays set. -/
def signalAborted (abortTime : Option Nat) (time : Nat) : Bool :=
  match abortTime with
  | some a => decide (a ≤ time)
  | none => false

/-- The filings.stream while loop again, now with explicit time so the
inter-iteration sleep can be examined. Iteration work is instantaneous in
this model; the sleep (agent.ts lines 475-478) is a bare
`setTimeout(pollIntervalSec * 1000)` promise with no abort listener, so
time advances by the full interval unconditionally and the signal is next
consulted only at the following loop-condition check. Returns the events,
the time of the check at which the loop exited, and the summary. -/
def streamLoopTimed (inp : StreamInput)
    (upstream : Nat → Except String SubmissionsResponse) (abortTime : Option Nat) :
    Nat → Nat → Nat → Option String → Nat → Option (List StreamEvent × Nat × StreamSummary)
  | 0, _, _, _, _ => none
  | fuel + 1, iter, time, lastAccession, sent =>
    if signalAborted abortTime time || decide (inp.maxEvents ≤ sent) then
      some ([], time,
        { status := if signalAborted abortTime time then "cancelled" else "succeeded"
          eventsSent := sent })
    else
      let out := streamStep (formsSetOf inp.forms) (upstream iter) lastAccession sent
      match streamLoopTimed inp upstream abortTime fuel (iter + 1)
          (time + inp.pollIntervalSec * 1000) out.1 out.2.1 with
      | none => none
      | some (evs', exitT, summary) => some (out.2.2 ++ evs', exitT, summary)

/-- Stub upstream that always answers 404 (spec scenario for C4). -/
def oracle404 : Nat → Except String Response :=
  fun _ => .ok { status := 404, body := "not found" }

/-- Stub upstream answering 503 on the first three attempts and 200
afterwards (spec scenario for C4). -/
def oracle503x3 : Nat → Except String Response :=
  fun i => if i < 3 then .ok { status := 503, body := "unavailable" }
           else .ok { status := 200, body := "payload" }

/-- Spec-side description of one normalized optional field (spec section
4.4): it equals the positional entry of its source column, with null
substituted when that column is absent or shorter. Stated from the spec
wording, to be compared with what recentFilingsToItems computes. -/
def positionalFieldSpec {α : Type} (seq : Option (List (Option α))) (i : Nat)
    (field : Option α) : Prop :=
  (∀ l x, seq = some l → l[i]? = some x → field = x)
  ∧ (seq = none → field = none)
  ∧ (∀ l, seq = some l → l.length ≤ i → field = none)

/-- The one-filing recent section used by the scenario snapshots. -/
def recentWith (acc : String) : SubmissionsRecent :=
  { accessionNumber := [acc]
    filingDate := ["2024-01-02"]
    form := ["8-K"]
    primaryDocument := some [some "doc.htm"] }

/-- A one-filing submissions snapshot whose latest accession is `acc`
(stream scenario of spec section 8). -/
def snapshotWith (acc : String) : SubmissionsResponse :=
  { cik := "320193"
    name := some "Apple Inc."
    tickers := some ["AAPL"]
    filings := some { recent := some (recentWith acc) } }

/-- Upstream for the C7 scenario: latest accession A on the first
iteration, B on the second, C afterwards. -/
def upstreamABC : Nat → Except String SubmissionsResponse :=
  fun i =>
    if i = 0 then .ok (snapshotWith "0000320193-24-000001")
    else if i = 1 then .ok (snapshotWith "0000320193-24-000002")
    else .ok (snapshotWith "0000320193-24-000003")

/-- Subscription input for the C7 scenario: no form filter, maxEvents 2. -/
def streamInputC7 : StreamInput :=
  { forms := none, pollIntervalSec := 30, maxEvents := 2 }

/-- The normalized filing record the scenario snapshots produce for a
given accession. -/
def filingOf (acc : String) : FilingItem :=
  { accessionNumber := acc
    filingDate := some "2024-01-02"
    form := some "8-K"
    primaryDocument := some "doc.htm" }

/-- The event the stream emits for scenario accession `acc`, its document
URL written out in full. -/
def eventOf (acc : String) : StreamEvent :=
  .text "320193" (some "Apple Inc.") (some ["AAPL"]) (filingOf acc)
    (some ("https://www.sec.gov/Archives/edgar/data/320193/" ++ accessionNoDashes acc ++ "/doc.htm"))

/-- Subscription input for the C1 cancellation scenario: minimum poll
interval (5 s), default maxEvents. -/
def streamInputC1 : StreamInput :=
  { forms := none, pollIntervalSec := 5, maxEvents := 50 }

/-- Upstream whose snapshots carry no filings at all (no events emitted). -/
def upstreamQuiet : Nat → Except String SubmissionsResponse :=
  fun _ => .ok { cik := "320193" }

/-- The retry loop yields an error exactly when every attempt before the
final one was continuable and the final attempt threw; the error is that
last exception. -/
theorem fetchLoop_error_iff (oracle : Nat → Except String Response) :
    ∀ (k a : Nat) (e : String),
      (fetchLoop oracle a k).1 = Except.error e ↔
        ((∀ i, a ≤ i → i < a + k → attemptContinues (oracle i) = true) ∧
          oracle (a + k) = Except.error e) := by
  intro k
  induction k with
  | zero =>
    intro a e
    constructor
    · intro hres
      refine ⟨fun i h1 h2 => absurd h2 (by omega), ?_⟩
      simpa [fetchLoop] using hres
    · rintro ⟨-, hlast⟩
      simpa [fetchLoop] using hlast
  | succ k ih =>
    intro a e
    cases h : oracle a with
    | ok res =>
      by_cases hok : res.ok
      · constructor
        · intro hres
          simp [fetchLoop, h, hok] at hres
        · rintro ⟨hall, -⟩
          have h0 := hall a le_rfl (by omega)
          simp [h, attemptContinues, hok] at h0
      · by_cases hr : retryableStatus res.status
        · have hstep : (fetchLoop oracle a (k + 1)).1 = (fetchLoop oracle (a + 1) k).1 := by
            simp [fetchLoop, h, hok, hr]
          rw [hstep, ih (a + 1) e]
          constructor
          · rintro ⟨hall, hlast⟩
            refine ⟨?_, by rw [show a + (k + 1) = a + 1 + k from by omega]; exact hlast⟩
            intro i h1 h2
            rcases Nat.eq_or_lt_of_le h1 with rfl | h1'
            · simp [h, attemptContinues, hok, hr]
            · exact hall i (by omega) (by omega)
          · rintro ⟨hall, hlast⟩
            refine ⟨fun i h1 h2 => hall i (by omega) (by omega),
              by rw [show a + 1 + k = a + (k + 1) from by omega]; exact hlast⟩
        · constructor
          · intro hres
            simp [fetchLoop, h, hok, hr] at hres
          · rintro ⟨hall, -⟩
            have h0 := hall a le_rfl (by omega)
            simp [h, attemptContinues, hok, hr] at h0
    | error e' =>
      have hstep : (fetchLoop oracle a (k + 1)).1 = (fetchLoop oracle (a + 1) k).1 := by
        simp [fetchLoop, h]
      rw [hstep, ih (a + 1) e]
      constructor
      · rintro ⟨hall, hlast⟩
        refine ⟨?_, by rw [show a + (k + 1) = a + 1 + k from by omega]; exact hlast⟩
        intro i h1 h2
        rcases Nat.eq_or_lt_of_le h1 with rfl | h1'
        · simp [h, attemptContinues]
        · exact hall i (by omega) (by omega)
      · rintro ⟨hall, hlast⟩
        refine ⟨fun i h1 h2 => hall i (by omega) (by omega),
          by rw [show a + 1 + k = a + (k + 1) from by omega]; exact hlast⟩

/-- When every attempt before the final one is continuable and the final
attempt produces a response, the loop returns that response, whatever its
status. -/
theorem fetchLoop_final_ok (oracle : Nat → Except String Response) :
    ∀ (k a : Nat) (res : Response),
      (∀ i, a ≤ i → i < a + k → attemptContinues (oracle i) = true) →
      oracle (a + k) = Except.ok res →
      (fetchLoop oracle a k).1 = Except.ok res := by
  intro k
  induction k with
  | zero =>
    intro a res _ hlast
    simpa [fetchLoop] using hlast
  | succ k ih =>
    intro a res hall hlast
    have h0 := hall a le_rfl (by omega)
    cases h : oracle a with
    | ok r0 =>
      have hcont : attemptContinues (Except.ok r0) = true := h ▸ h0
      simp only [attemptContinues, Bool.and_eq_true, Bool.not_eq_true'] at hcont
      have : (fetchLoop oracle a (k + 1)).1 = (fetchLoop oracle (a + 1) k).1 := by
        simp [fetchLoop, h, hcont.1, hcont.2]
      rw [this]
      exact ih (a + 1) res (fun i h1 h2 => hall i (by omega) (by omega))
        (by rw [show a + 1 + k = a + (k + 1) from by omega]; exact hlast)
    | error e' =>
      have : (fetchLoop oracle a (k + 1)).1 = (fetchLoop oracle (a + 1) k).1 := by
        simp [fetchLoop, h]
      rw [this]
      exact ih (a + 1) res (fun i h1 h2 => hall i (by omega) (by omega))
        (by rw [show a + 1 + k = a + (k + 1) from by omega]; exact hlast)

/-- Each pass of the retry loop either moves to the next attempt (exactly
when the outcome was continuable and budget remains) or finishes at once
with the current outcome. -/
theorem fetchLoop_step (oracle : Nat → Except String Response) (a k : Nat) :
    (attemptContinues (oracle a) = true ∧
      fetchLoop oracle a (k + 1) =
        ((fetchLoop oracle (a + 1) k).1, (fetchLoop oracle (a + 1) k).2 + 1))
    ∨ (attemptContinues (oracle a) = false ∧ fetchLoop oracle a (k + 1) = (oracle a, 1)) := by
  cases h : oracle a with
  | ok res =>
    by_cases hok : res.ok
    · exact Or.inr ⟨by simp [attemptContinues, hok], by simp [fetchLoop, h, hok]⟩
    · by_cases hr : retryableStatus res.status
      · exact Or.inl ⟨by simp [attemptContinues, hok, hr], by simp [fetchLoop, h, hok, hr]⟩
      · exact Or.inr ⟨by simp [attemptContinues, hok, hr], by simp [fetchLoop, h, hok, hr]⟩
  | error e =>
    exact Or.inl ⟨by simp [attemptContinues], by simp [fetchLoop, h]⟩

/-- The loop performs at least one attempt. -/
theorem fetchLoop_attempts_pos (oracle : Nat → Except String Response) :
    ∀ (k a : Nat), 1 ≤ (fetchLoop oracle a k).2 := by
  intro k
  induction k with
  | zero => intro a; simp [fetchLoop]
  | succ k ih =>
    intro a
    rcases fetchLoop_step oracle a k with ⟨-, hstep⟩ | ⟨-, hstep⟩ <;> simp [hstep]

/-- The loop performs at most `k + 1` attempts. -/
theorem fetchLoop_attempts_le (oracle : Nat → Except String Response) :
    ∀ (k a : Nat), (fetchLoop oracle a k).2 ≤ k + 1 := by
  intro k
  induction k with
  | zero => intro a; simp [fetchLoop]
  | succ k ih =>
    intro a
    rcases fetchLoop_step oracle a k with ⟨-, hstep⟩ | ⟨-, hstep⟩ <;> rw [hstep]
    · simpa using Nat.succ_le_succ (ih (a + 1))
    · simp

/-- Every attempt the loop performed other than its last had a continuable
outcome: the loop never retried after a non-transient response. -/
theorem fetchLoop_attempts_prefix (oracle : Nat → Except String Response) :
    ∀ (k a i : Nat), a ≤ i → i + 1 < a + (fetchLoop oracle a k).2 →
      attemptContinues (oracle i) = true := by
  intro k
  induction k with
  | zero =>
    intro a i h1 h2
    simp [fetchLoop] at h2
    omega
  | succ k ih =>
    intro a i h1 h2
    rcases fetchLoop_step oracle a k with ⟨hcont, hstep⟩ | ⟨-, hstep⟩
    · rw [hstep] at h2
      rcases Nat.eq_or_lt_of_le h1 with rfl | h1'
      · exact hcont
      · exact ih (a + 1) i (by omega) (by simp at h2; omega)
    · rw [hstep] at h2
      omega

/-- The loop stopped either because the budget was exhausted or because
the last outcome was not continuable. -/
theorem fetchLoop_attempts_stop (oracle : Nat → Except String Response) :
    ∀ (k a : Nat), (fetchLoop oracle a k).2 = k + 1
      ∨ attemptContinues (oracle (a + (fetchLoop oracle a k).2 - 1)) = false := by
  intro k
  induction k with
  | zero => intro a; left; simp [fetchLoop]
  | succ k ih =>
    intro a
    rcases fetchLoop_step oracle a k with ⟨-, hstep⟩ | ⟨hstop, hstep⟩
    · rcases ih (a + 1) with hlen | hlast
      · left
        rw [hstep]
        simp [hlen]
      · right
        rw [hstep]
        have hpos := fetchLoop_attempts_pos oracle k (a + 1)
        have : a + ((fetchLoop oracle (a + 1) k).2 + 1) - 1
            = a + 1 + (fetchLoop oracle (a + 1) k).2 - 1 := by omega
        simpa [this] using hlast
    · right
      rw [hstep]
      simpa using hstop

/-- C3: when the final attempt of a fetchWithRetry call yields an HTTP
response, that response is returned even if its status is transient; an
error escapes only when every earlier attempt was continuable and the
final attempt threw a network-level exception, in which case that last
exception is the error. -/
theorem fetch_exhaustion_asymmetry :
    ∀ (oracle : Nat → Except String Response) (retries : Nat),
      (∀ e, fetchWithRetry oracle retries = Except.error e ↔
        ((∀ i, i < retries → attemptContinues (oracle i) = true) ∧
          oracle retries = Except.error e))
      ∧ (∀ res, (∀ i, i < retries → attemptContinues (oracle i) = true) →
          oracle retries = Except.ok res →
          fetchWithRetry oracle retries = Except.ok res) := by
  intro oracle retries
  constructor
  · intro e
    rw [fetchWithRetry, fetchLoop_error_iff oracle retries 0 e]
    simp
  · intro res hall hlast
    exact fetchLoop_final_ok oracle retries 0 res
      (fun i _ h2 => hall i (by omega)) (by simpa using hlast)

/-- Witness for C3: a call whose every attempt throws surfaces the last
exception. -/
theorem fetch_exhaustion_asymmetry_witness :
    fetchWithRetry (fun _ => Except.error "connection reset") 2
      = Except.error "connection reset" :=
  ((fetch_exhaustion_asymmetry (fun _ => Except.error "connection reset") 2).1
      "connection reset").mpr ⟨fun _ _ => rfl, rfl⟩

/-- C4: fetchWithRetry performs between 1 and `retries + 1` attempts (at
most 5 with the default budget of 4 retries), retries only after a
network exception or a transient-status response (and stops early exactly
when an attempt was not of that kind), returns a 404 as-is after exactly
one attempt, and against an upstream answering 503 three times then 200
returns the 200 response on the 4th attempt. -/
theorem fetch_retry_policy :
    (∀ (oracle : Nat → Except String Response) (retries : Nat),
      1 ≤ fetchAttempts oracle retries ∧ fetchAttempts oracle retries ≤ retries + 1)
    ∧ (∀ oracle : Nat → Except String Response, fetchAttempts oracle 4 ≤ 5)
    ∧ (∀ (oracle : Nat → Except String Response) (retries i : Nat),
        i + 1 < fetchAttempts oracle retries → attemptContinues (oracle i) = true)
    ∧ (∀ (oracle : Nat → Except String Response) (retries : Nat),
        fetchAttempts oracle retries = retries + 1
        ∨ attemptContinues (oracle (fetchAttempts oracle retries - 1)) = false)
    ∧ (fetchWithRetry oracle404 4 = Except.ok { status := 404, body := "not found" }
        ∧ fetchAttempts oracle404 4 = 1)
    ∧ (fetchWithRetry oracle503x3 4 = Except.ok { status := 200, body := "payload" }
        ∧ fetchAttempts oracle503x3 4 = 4) := by
  refine ⟨?_, ?_, ?_, ?_, ⟨rfl, rfl⟩, ⟨rfl, rfl⟩⟩
  · exact fun oracle retries =>
      ⟨fetchLoop_attempts_pos oracle retries 0, fetchLoop_attempts_le oracle retries 0⟩
  · exact fun oracle => fetchLoop_attempts_le oracle 4 0
  · intro oracle retries i h
    exact fetchLoop_attempts_prefix oracle retries 0 i (Nat.zero_le i) (by simpa using h)
  · intro oracle retries
    simpa using fetchLoop_attempts_stop oracle retries 0

/-- Witness for C4: in the 503-503-503-200 scenario the first attempt was
continuable, derived from the attempt-count characterization. -/
theorem fetch_retry_policy_witness :
    attemptContinues (oracle503x3 0) = true :=
  fetch_retry_policy.2.2.1 oracle503x3 4 0 (by decide)

/-- Counterexample to C2: with SEC_USER_AGENT unset, the summarize
handler still forms its outbound document request and sends it with the
hardcoded fallback User-Agent — no precondition error is raised on that
path, although the shared fetch path rejects the very same environment. -/
theorem summarize_fallback_header_cex :
    (summarizeDocRequest none
        "https://www.sec.gov/Archives/edgar/data/320193/000032019324000001/doc.htm").userAgent
      = some "sec-filings-agent/0.1 (set SEC_USER_AGENT env var)"
    ∧ requireSecUserAgent none = Except.error missingUserAgentMessage :=
  ⟨rfl, rfl⟩

/-- C2 as amended: every request issued through fetchJson carries the
validated identifying header, and a missing, empty or too-short value is
a fatal precondition error raised before the request exists; the
summarize handler document fetch, however, performs no precondition check
and always sends, substituting a hardcoded fallback User-Agent when the
variable is unset. -/
theorem user_agent_precondition_amended :
    (∀ (env : Option String) (url : String),
        (env = none ∨ ∃ ua, env = some ua ∧ (ua = "" ∨ ua.trim.length < 10)) →
        fetchJsonRequest env url = Except.error missingUserAgentMessage)
    ∧ (∀ (env : Option String) (url : String) (req : SecRequest),
        fetchJsonRequest env url = Except.ok req →
        ∃ ua, env = some ua ∧ req.userAgent = some ua
          ∧ ua ≠ "" ∧ 10 ≤ ua.trim.length ∧ req.url = url)
    ∧ (∀ url : String, (summarizeDocRequest none url).userAgent
        = some "sec-filings-agent/0.1 (set SEC_USER_AGENT env var)") := by
  refine ⟨?_, ?_, fun url => rfl⟩
  · rintro env url (rfl | ⟨ua, rfl, hbad⟩)
    · rfl
    · simp [fetchJsonRequest, requireSecUserAgent, hbad]
  · intro env url req h
    cases env with
    | none => exact absurd h (by simp [fetchJsonRequest, requireSecUserAgent])
    | some ua =>
      by_cases hbad : ua = "" ∨ ua.trim.length < 10
      · exact absurd h (by simp [fetchJsonRequest, requireSecUserAgent, hbad])
      · push_neg at hbad
        have hnot : ¬(ua = "" ∨ ua.trim.length < 10) := by
          push_neg
          exact ⟨hbad.1, by omega⟩
        have hreq : req = ({ url := url, userAgent := some ua, accept := "application/json,text/plain,*/*" } : SecRequest) := by
          have h' := h.symm
          simpa [fetchJsonRequest, requireSecUserAgent, hnot] using h'
        exact ⟨ua, rfl, by simp [hreq], hbad.1, hbad.2, by simp [hreq]⟩

/-- Witness for the amended C2: an unset environment is rejected on the
fetchJson path before any request exists. -/
theorem user_agent_precondition_amended_witness :
    fetchJsonRequest none "https://www.sec.gov/files/company_tickers.json"
      = Except.error missingUserAgentMessage :=
  user_agent_precondition_amended.1 none
    "https://www.sec.gov/files/company_tickers.json" (Or.inl rfl)

/-- C5: on a miss or stale hit, getSubmissions performs exactly one
upstream fetch; on success it replaces the entry under the normalized key
with the new value and timestamp and returns the new snapshot; on failure
it leaves the cache untouched and propagates the error, never serving the
stale snapshot. -/
theorem getSubmissions_refresh_semantics :
    ∀ (cache : SubmissionsCache) (now : Nat)
      (fetchResult : Except String SubmissionsResponse) (cik : CikInput) (ttl : Nat),
      (∀ entry, cache.lookup (normalizeCik cik) = some entry →
        ¬((now : Int) - (entry.fetchedAt : Int) < (ttl : Int))) →
      (getSubmissions cache now fetchResult cik ttl).fetches = 1
      ∧ (∀ value, fetchResult = Except.ok value →
          (getSubmissions cache now fetchResult cik ttl).result = Except.ok value
          ∧ (getSubmissions cache now fetchResult cik ttl).cache
              = mapSet cache (normalizeCik cik) { fetchedAt := now, value := value })
      ∧ (∀ e, fetchResult = Except.error e →
          (getSubmissions cache now fetchResult cik ttl).result = Except.error e
          ∧ (getSubmissions cache now fetchResult cik ttl).cache = cache) := by
  intro cache now fetchResult cik ttl hstale
  cases hlk : cache.lookup (normalizeCik cik) with
  | some entry =>
    have hcond := hstale entry hlk
    cases fetchResult with
    | ok value =>
      refine ⟨?_, ?_, ?_⟩
      · simp [getSubmissions, hlk, hcond]
      · rintro v ⟨rfl⟩
        exact ⟨by simp [getSubmissions, hlk, hcond], by simp [getSubmissions, hlk, hcond]⟩
      · rintro e ⟨⟩
    | error e =>
      refine ⟨?_, ?_, ?_⟩
      · simp [getSubmissions, hlk, hcond]
      · rintro v ⟨⟩
      · rintro e' ⟨rfl⟩
        exact ⟨by simp [getSubmissions, hlk, hcond], by simp [getSubmissions, hlk, hcond]⟩
  | none =>
    cases fetchResult with
    | ok value =>
      refine ⟨by simp [getSubmissions, hlk], ?_, ?_⟩
      · rintro v ⟨rfl⟩
        exact ⟨by simp [getSubmissions, hlk], by simp [getSubmissions, hlk]⟩
      · rintro e ⟨⟩
    | error e =>
      refine ⟨by simp [getSubmissions, hlk], ?_, ?_⟩
      · rintro v ⟨⟩
      · rintro e' ⟨rfl⟩
        exact ⟨by simp [getSubmissions, hlk], by simp [getSubmissions, hlk]⟩

/-- Witness for C5: a stale hit (entry aged 50 s against a 30 s TTL) with
a failing upstream performs its one fetch. -/
theorem getSubmissions_refresh_semantics_witness :
    (getSubmissions
        [("320193", { fetchedAt := 0, value := snapshotWith "0000320193-24-000001" })]
        50000 (Except.error "SEC fetch failed 503") (CikInput.str "320193") 30000).fetches = 1 :=
  (getSubmissions_refresh_semantics
      [("320193", { fetchedAt := 0, value := snapshotWith "0000320193-24-000001" })]
      50000 (Except.error "SEC fetch failed 503") (CikInput.str "320193") 30000
      (by
        intro entry h
        rw [show List.lookup (normalizeCik (CikInput.str "320193"))
              [("320193", { fetchedAt := 0, value := snapshotWith "0000320193-24-000001" })]
            = some ({ fetchedAt := 0, value := snapshotWith "0000320193-24-000001" } : CacheEntry)
          from by decide] at h
        cases Option.some.inj h
        decide)).1

/-- The normalizer's positional access satisfies the spec-side field
description. -/
theorem optionAt_meets_spec {α : Type} (seq : Option (List (Option α))) (i : Nat) :
    positionalFieldSpec seq i (optionAt seq i) := by
  refine ⟨?_, ?_, ?_⟩
  · intro l x hseq hx
    subst hseq
    simp [optionAt, hx]
  · intro hseq
    subst hseq
    rfl
  · intro l hseq hlen
    subst hseq
    simp [optionAt, List.getElem?_eq_none hlen]

/-- C6: recentFilingsToItems maps an absent input to the empty sequence
and otherwise yields exactly one record per accessionNumber entry, in
order, where record `i` takes each field from position `i` of that field's
source sequence — with null substituted for an optional sequence that is
absent or shorter — and nothing is reordered, filtered or deduplicated. -/
theorem normalize_positional :
    recentFilingsToItems none = []
    ∧ ∀ r : SubmissionsRecent,
        (recentFilingsToItems (some r)).length = r.accessionNumber.length
        ∧ (∀ i : Nat, i < r.accessionNumber.length →
            r.filingDate.length = r.accessionNumber.length →
            r.form.length = r.accessionNumber.length →
            ∃ item : FilingItem,
              (recentFilingsToItems (some r))[i]? = some item
              ∧ (∃ a, r.accessionNumber[i]? = some a ∧ item.accessionNumber = a)
              ∧ (∃ d, r.filingDate[i]? = some d ∧ item.filingDate = some d)
              ∧ (∃ f, r.form[i]? = some f ∧ item.form = some f)
              ∧ positionalFieldSpec r.reportDate i item.reportDate
              ∧ positionalFieldSpec r.acceptanceDateTime i item.acceptanceDateTime
              ∧ positionalFieldSpec r.act i item.act
              ∧ positionalFieldSpec r.fileNumber i item.fileNumber
              ∧ positionalFieldSpec r.filmNumber i item.filmNumber
              ∧ positionalFieldSpec r.items i item.items
              ∧ positionalFieldSpec r.size i item.size
              ∧ positionalFieldSpec r.isXBRL i item.isXBRL
              ∧ positionalFieldSpec r.isInlineXBRL i item.isInlineXBRL
              ∧ positionalFieldSpec r.primaryDocument i item.primaryDocument
              ∧ positionalFieldSpec r.primaryDocDescription i item.primaryDocDescription) := by
  refine ⟨rfl, fun r => ⟨by simp [recentFilingsToItems], ?_⟩⟩
  intro i hi hfd hfm
  refine ⟨filingItemAt r i, ?_, ?_, ?_, ?_,
    optionAt_meets_spec r.reportDate i, optionAt_meets_spec r.acceptanceDateTime i,
    optionAt_meets_spec r.act i, optionAt_meets_spec r.fileNumber i,
    optionAt_meets_spec r.filmNumber i, optionAt_meets_spec r.items i,
    optionAt_meets_spec r.size i, optionAt_meets_spec r.isXBRL i,
    optionAt_meets_spec r.isInlineXBRL i, optionAt_meets_spec r.primaryDocument i,
    optionAt_meets_spec r.primaryDocDescription i⟩
  · simp [recentFilingsToItems, List.getElem?_range, hi]
  · exact ⟨r.accessionNumber[i], List.getElem?_eq_getElem hi,
      by simp [filingItemAt, List.getElem?_eq_getElem hi]⟩
  · have hd : i < r.filingDate.length := by omega
    exact ⟨r.filingDate[i], List.getElem?_eq_getElem hd,
      by simp [filingItemAt, List.getElem?_eq_getElem hd]⟩
  · have hf : i < r.form.length := by omega
    exact ⟨r.form[i], List.getElem?_eq_getElem hf,
      by simp [filingItemAt, List.getElem?_eq_getElem hf]⟩

/-- Witness for C6: the scenario one-filing record normalizes to a record
carrying its accession at position 0. -/
theorem normalize_positional_witness :
    ∃ item : FilingItem,
      (recentFilingsToItems (some (recentWith "0000320193-24-000001")))[0]? = some item
      ∧ item.accessionNumber = "0000320193-24-000001" := by
  obtain ⟨item, h1, ⟨a, ha1, ha2⟩, -⟩ :=
    (normalize_positional.2 (recentWith "0000320193-24-000001")).2 0 (by decide) rfl rfl
  refine ⟨item, h1, ?_⟩
  simp [recentWith] at ha1
  rw [ha2, ha1]

/-- C7: with maxEvents 2 against an upstream whose latest accession is A
on the first iteration, B on the second and C afterwards, the very first
observed accession emits (the initial cursor is null), the change to B
emits a second event, the two arrive in that order, and the stream then
terminates with status succeeded and an emitted count of 2 (the source
summary field eventsSent, which the spec calls emittedCount). -/
theorem stream_two_events_scenario :
    streamLoop streamInputC7 upstreamABC (fun _ => false) 3 0 none 0 =
      some ([eventOf "0000320193-24-000001", eventOf "0000320193-24-000002"],
        { status := "succeeded", eventsSent := 2 }) := by
  decide

/-- C8: a failing poll iteration emits exactly one in-band retryable
error event carrying the failure message and leaves the cursor and the
emitted count unchanged; the loop then proceeds to its next iteration
instead of terminating, so no iteration error escapes the stream as a
fatal error. -/
theorem stream_poll_error_in_band :
    (∀ (fSet : Option (List String)) (e : String) (last : Option String) (sent : Nat),
        streamStep fSet (Except.error e) last sent
          = (last, sent, [StreamEvent.pollError "stream_poll_error" e true]))
    ∧ (∀ (inp : StreamInput) (upstream : Nat → Except String SubmissionsResponse)
        (abortedAt : Nat → Bool) (fuel iter : Nat) (last : Option String) (sent : Nat)
        (e : String),
        upstream iter = Except.error e → abortedAt iter = false → sent < inp.maxEvents →
        streamLoop inp upstream abortedAt (fuel + 1) iter last sent =
          match streamLoop inp upstream abortedAt fuel (iter + 1) last sent with
          | none => none
          | some (evs, summary) =>
            some (StreamEvent.pollError "stream_poll_error" e true :: evs, summary)) := by
  constructor
  · intro fSet e last sent
    rfl
  · intro inp upstream abortedAt fuel iter last sent e hup habort hsent
    have hcond : (abortedAt iter || decide (inp.maxEvents ≤ sent)) = false := by
      simp [habort]
      omega
    have hstep : streamStep (formsSetOf inp.forms) (upstream iter) last sent
        = (last, sent, [StreamEvent.pollError "stream_poll_error" e true]) := by
      rw [hup]
      rfl
    simp only [streamLoop]
    rw [hcond, if_neg Bool.false_ne_true, hstep]
    cases hrec : streamLoop inp upstream abortedAt fuel (iter + 1) last sent with
    | none => rfl
    | some pair =>
      cases pair with
      | mk evs summary => rfl

/-- Witness for C8: one failing iteration against a quiet subscription
produces exactly the in-band error event before a cancellation exit. -/
theorem stream_poll_error_in_band_witness :
    streamLoop streamInputC1 (fun _ => Except.error "SEC fetch failed 503")
        (fun i => decide (1 ≤ i)) 2 0 none 0
      = some ([StreamEvent.pollError "stream_poll_error" "SEC fetch failed 503" true],
          { status := "cancelled", eventsSent := 0 }) := by
  rw [stream_poll_error_in_band.2 streamInputC1 (fun _ => Except.error "SEC fetch failed 503")
      (fun i => decide (1 ≤ i)) 1 0 none 0 "SEC fetch failed 503" rfl rfl (by decide)]
  decide

/-- Counterexample to C1: poll interval 5 s, cancellation signalled 1 ms
into the first sleep (the signal is still clear at the check at time 0 and
set from time 1 on); the loop nevertheless exits only at the next check at
5000 ms, having slept the full interval — the sleep was not interrupted. -/
theorem stream_sleep_not_interruptible_cex :
    streamLoopTimed streamInputC1 upstreamQuiet (some 1) 2 0 0 none 0
      = some ([], 5000, { status := "cancelled", eventsSent := 0 })
    ∧ signalAborted (some 1) 0 = false
    ∧ signalAborted (some 1) 1 = true :=
  ⟨by decide, rfl, rfl⟩

/-- C1 as amended: the stream observes cancellation only at the
loop-condition checks, which fall exactly at whole multiples of the poll
interval after the stream starts; a signal raised during the
inter-iteration sleep therefore takes effect only after the full interval
has elapsed, and the loop then exits at that boundary with the status the
signal dictates (cancelled when set, succeeded otherwise), never with an
error. -/
theorem stream_exit_only_at_poll_boundary :
    ∀ (inp : StreamInput) (upstream : Nat → Except String SubmissionsResponse)
      (abortTime : Option Nat) (fuel iter time : Nat) (last : Option String) (sent : Nat)
      (evs : List StreamEvent) (exitT : Nat) (summary : StreamSummary),
      streamLoopTimed inp upstream abortTime fuel iter time last sent
        = some (evs, exitT, summary) →
      (∃ m, exitT = time + m * (inp.pollIntervalSec * 1000))
      ∧ summary.status
          = (if signalAborted abortTime exitT then "cancelled" else "succeeded") := by
  intro inp upstream abortTime fuel
  induction fuel with
  | zero =>
    intro iter time last sent evs exitT summary h
    simp [streamLoopTimed] at h
  | succ fuel ih =>
    intro iter time last sent evs exitT summary h
    simp only [streamLoopTimed] at h
    cases hcond : (signalAborted abortTime time || decide (inp.maxEvents ≤ sent)) with
    | true =>
      rw [hcond, if_pos rfl] at h
      simp only [Option.some.injEq, Prod.mk.injEq] at h
      obtain ⟨rfl, rfl, rfl⟩ := h
      exact ⟨⟨0, by simp⟩, rfl⟩
    | false =>
      rw [hcond, if_neg Bool.false_ne_true] at h
      cases hrec : streamLoopTimed inp upstream abortTime fuel (iter + 1)
          (time + inp.pollIntervalSec * 1000)
          (streamStep (formsSetOf inp.forms) (upstream iter) last sent).1
          (streamStep (formsSetOf inp.forms) (upstream iter) last sent).2.1 with
      | none =>
        rw [hrec] at h
        exact absurd h (by simp)
      | some triple =>
        obtain ⟨evs', exitT', summary'⟩ := triple
        rw [hrec] at h
        simp only [Option.some.injEq, Prod.mk.injEq] at h
        obtain ⟨-, rfl, rfl⟩ := h
        obtain ⟨⟨m, hm⟩, hstatus⟩ := ih _ _ _ _ _ _ _ hrec
        refine ⟨⟨m + 1, ?_⟩, hstatus⟩
        rw [hm]
        ring

/-- Witness for the amended C1: the concrete cancelled run exits at the
5000 ms boundary, one full interval after the start. -/
theorem stream_exit_only_at_poll_boundary_witness :
    (∃ m, 5000 = 0 + m * (streamInputC1.pollIntervalSec * 1000))
    ∧ ({ status := "cancelled", eventsSent := 0 } : StreamSummary).status
        = (if signalAborted (some 1) 5000 then "cancelled" else "succeeded") :=
  stream_exit_only_at_poll_boundary streamInputC1 upstreamQuiet (some 1) 2 0 0 none 0
    [] 5000 { status := "cancelled", eventsSent := 0 } (by decide)

/-- Once the promise is published, further calls return it and leave the
state unchanged. -/
theorem runTickerCalls_settled (p : Nat) (st : TickerState)
    (hp : st.tickerMapPromise = some p) :
    ∀ k, runTickerCalls k st = (List.replicate k p, st) := by
  intro k
  induction k with
  | zero => rfl
  | succ k ih =>
    have hcall : getTickerMapCall st = (p, st) := by
      simp [getTickerMapCall, hp]
    simp [runTickerCalls, hcall, ih, List.replicate_succ]

/-- C9: any number of resolution calls triggers exactly one bulk fetch:
the first call creates and publishes the single promise, every later
caller — concurrent callers during the in-flight fetch included — gets
that same promise back, and no call ever changes the published state
again (there is no refresh or invalidation transition). -/
theorem ticker_map_single_flight :
    (∀ k : Nat,
        runTickerCalls (k + 1) initialTickerState
          = (List.replicate (k + 1) 0, { tickerMapPromise := some 0, fetchCount := 1 }))
    ∧ (∀ (st : TickerState) (p : Nat), st.tickerMapPromise = some p →
        getTickerMapCall st = (p, st)) := by
  constructor
  · intro k
    have hfirst : getTickerMapCall initialTickerState
        = (0, { tickerMapPromise := some 0, fetchCount := 1 }) := rfl
    have hrest := runTickerCalls_settled 0
      ({ tickerMapPromise := some 0, fetchCount := 1 }) rfl k
    simp [runTickerCalls, hfirst, hrest, List.replicate_succ]
  · intro st p hp
    simp [getTickerMapCall, hp]

/-- Witness for C9: a caller that finds the promise already published
receives it and leaves the state intact. -/
theorem ticker_map_single_flight_witness :
    getTickerMapCall { tickerMapPromise := some 0, fetchCount := 1 }
      = (0, { tickerMapPromise := some 0, fetchCount := 1 }) :=
  ticker_map_single_flight.2 { tickerMapPromise := some 0, fetchCount := 1 } 0 rfl

/-- With the promise published as index 0 and that fetch failed, every
further getTickerMap call returns the same error and keeps the state. -/
theorem runGetTickerMaps_settled_error
    (fetchOutcome : Nat → Except String (List TickerRow)) (e : String)
    (hfail : fetchOutcome 0 = Except.error e) :
    ∀ k, runGetTickerMaps fetchOutcome k { tickerMapPromise := some 0, fetchCount := 1 }
      = (List.replicate k (Except.error e),
         { tickerMapPromise := some 0, fetchCount := 1 }) := by
  intro k
  induction k with
  | zero => rfl
  | succ k ih =>
    simp [runGetTickerMaps, getTickerMap, getTickerMapCall, hfail, ih,
      List.replicate_succ, Except.map]

/-- C10: when the one-time bulk ticker download fails, the rejected
promise itself stays cached: every subsequent getTickerMap call rejects
with the same original error without starting a new bulk fetch, and
cikFromTicker rejects with that error for any ticker — the failed first
load poisons ticker resolution for the rest of the process lifetime. -/
theorem ticker_map_poisoned_on_failure :
    ∀ (fetchOutcome : Nat → Except String (List TickerRow)) (e : String) (k : Nat)
      (tk : String),
      fetchOutcome 0 = Except.error e →
      (runGetTickerMaps fetchOutcome (k + 1) initialTickerState).1
          = List.replicate (k + 1) (Except.error e)
      ∧ (runGetTickerMaps fetchOutcome (k + 1) initialTickerState).2
          = { tickerMapPromise := some 0, fetchCount := 1 }
      ∧ (cikFromTicker fetchOutcome
            (runGetTickerMaps fetchOutcome (k + 1) initialTickerState).2 tk).1
          = Except.error e := by
  intro fetchOutcome e k tk hfail
  have hrun : runGetTickerMaps fetchOutcome (k + 1) initialTickerState
      = (List.replicate (k + 1) (Except.error e),
         { tickerMapPromise := some 0, fetchCount := 1 }) := by
    have hfirst : getTickerMap fetchOutcome initialTickerState
        = (Except.error e, { tickerMapPromise := some 0, fetchCount := 1 }) := by
      simp [getTickerMap, getTickerMapCall, initialTickerState, hfail, Except.map]
    simp [runGetTickerMaps, hfirst,
      runGetTickerMaps_settled_error fetchOutcome e hfail k, List.replicate_succ]
  refine ⟨by rw [hrun], by rw [hrun], ?_⟩
  rw [hrun]
  simp [cikFromTicker, getTickerMap, getTickerMapCall, hfail, Except.map]

/-- Witness for C10: three calls after a failed first load all reject
with the original error. -/
theorem ticker_map_poisoned_on_failure_witness :
    (runGetTickerMaps (fun _ => Except.error "SEC fetch failed 503") 3
        initialTickerState).1
      = List.replicate 3 (Except.error "SEC fetch failed 503") :=
  (ticker_map_poisoned_on_failure (fun _ => Except.error "SEC fetch failed 503")
      "SEC fetch failed 503" 2 "AAPL" rfl).1

end SecFilings
